import Mathlib

/-!
Verification development for the connection-configuration core of sapcc/goose
(lib/goose/dbconf.go): a shallow embedding of `NewDBConf` (configuration
resolution) and `OpenDBFromDBConf` (connection bootstrap), together with
models of the library functions they call (os.ExpandEnv, pq.ParseURL, the
regexp "dbname=([^ ]+)" operations, and the database/sql call surface).
Effectful calls are driven by an explicit environment (`World`) and recorded
in a trace of `Effect`s.
-/

namespace Goose

/-! ## Model of os.ExpandEnv (Go standard library os.Expand with Getenv) -/

/-- A process environment: variable name to value, `none` when unset. -/
def EnvMap : Type := String → Option String

def isShellSpecialVar (c : Char) : Bool :=
  c == '*' || c == '#' || c == '$' || c == '@' || c == '!' || c == '?' ||
  c == '-' || (48 ≤ c.toNat && c.toNat ≤ 57)

def isAlphaNumChar (c : Char) : Bool :=
  c == '_' || (48 ≤ c.toNat && c.toNat ≤ 57) ||
  (97 ≤ c.toNat && c.toNat ≤ 122) || (65 ≤ c.toNat && c.toNat ≤ 90)

def lbraceChar : Char := Char.ofNat 123

def rbraceChar : Char := Char.ofNat 125

/-- Scan to the closing brace of a dollar-brace reference; mirrors the brace
loop of Go's getShellName. The counter `i` is the index in the string that
starts at the opening brace; on finding the close at index `i` the width
returned is `i + 1`. -/
def scanBrace : List Char → Nat → Option (List Char × Nat)
  | [], _ => none
  | c :: cs, i =>
    if c == rbraceChar then some ([], i + 1) else
      match scanBrace cs (i + 1) with
      | some (nm, w) => some (c :: nm, w)
      | none => none

/-- Model of Go os.getShellName, on the characters following a `$`. -/
def getShellName : List Char → (List Char × Nat)
  | [] => ([], 0)
  | c :: cs =>
    if c == lbraceChar then
      match cs with
      | c1 :: c2 :: _ =>
        if isShellSpecialVar c1 && c2 == rbraceChar then ([c1], 3)
        else
          match scanBrace cs 1 with
          | some (nm, w) => if nm.isEmpty then ([], 2) else (nm, w)
          | none => ([], 1)
      | _ =>
        match scanBrace cs 1 with
        | some (nm, w) => if nm.isEmpty then ([], 2) else (nm, w)
        | none => ([], 1)
    else if isShellSpecialVar c then ([c], 1)
    else if isAlphaNumChar c then
      let nm := (c :: cs).takeWhile isAlphaNumChar
      (nm, nm.length)
    else ([], 0)

/-- Model of Go os.Expand, fuel-indexed so that it is structurally
recursive; fuel equal to the input length suffices. -/
def osExpandFuel (mapping : String → String) : Nat → List Char → List Char
  | 0, l => l
  | _ + 1, [] => []
  | n + 1, c :: rest =>
    if c == '$' then
      match rest with
      | [] => ['$']
      | _ :: _ =>
        let (nm, w) := getShellName rest
        if nm.isEmpty && w > 0 then osExpandFuel mapping n (rest.drop w)
        else if nm.isEmpty then '$' :: osExpandFuel mapping n rest
        else (mapping (String.mk nm)).data ++ osExpandFuel mapping n (rest.drop w)
    else c :: osExpandFuel mapping n rest

def osExpand (mapping : String → String) (s : String) : String :=
  String.mk (osExpandFuel mapping s.data.length s.data)

/-- Model of Go os.ExpandEnv: unset variables expand to the empty string. -/
def osExpandEnv (envv : EnvMap) (s : String) : String :=
  osExpand (fun nm => (envv nm).getD "") s

/-! ## List-of-characters helpers -/

/-- Split a list at the first occurrence of `c`; the separator is dropped. -/
def splitOnFirst (c : Char) : List Char → Option (List Char × List Char)
  | [] => none
  | x :: xs =>
    if x == c then some ([], xs)
    else
      match splitOnFirst c xs with
      | some (a, b) => some (x :: a, b)
      | none => none

/-- Split a list at the last occurrence of `c`; the separator is dropped. -/
def splitOnLast (c : Char) (l : List Char) : Option (List Char × List Char) :=
  match splitOnFirst c l.reverse with
  | some (a, b) => some (b.reverse, a.reverse)
  | none => none

/-- Split a list at the first occurrence of the (non-empty) marker list; the
marker is dropped. -/
def splitOnMarker (marker : List Char) : List Char → Option (List Char × List Char)
  | [] => none
  | x :: xs =>
    if marker.isPrefixOf (x :: xs) then some ([], (x :: xs).drop marker.length)
    else
      match splitOnMarker marker xs with
      | some (a, b) => some (x :: a, b)
      | none => none

/-! ## Model of github.com/lib/pq ParseURL

Faithful to pq's url.go for URLs without percent-escapes and without
bracketed IPv6 hosts: parse the URL shape
scheme://[user[:password]@]host[:port][/dbname][?query], require a
postgres/postgresql scheme, accumulate the non-empty fields as
key=value pairs (single quotes and backslashes in values escaped with a
backslash), sort the pairs and join them with single spaces. -/

def squoteChar : Char := Char.ofNat 39

def backslashChar : Char := Char.ofNat 92

/-- pq's value escaper: backslash-escape single quotes and backslashes. -/
def pqEscape (s : String) : String :=
  String.mk (s.data.flatMap fun c =>
    if c == squoteChar || c == backslashChar then [backslashChar, c] else [c])

/-- Accumulate `k=v` when the value is non-empty (pq's `accrue`). -/
def accrue (k v : String) (kvs : List String) : List String :=
  if v.isEmpty then kvs else kvs ++ [k ++ "=" ++ pqEscape v]

/-- Boolean lexicographic order on strings via character code points,
matching Go's byte-wise string order for ASCII data. -/
def strLeChars : List Char → List Char → Bool
  | [], _ => true
  | _ :: _, [] => false
  | a :: as_, b :: bs =>
    if a.toNat < b.toNat then true
    else if b.toNat < a.toNat then false
    else strLeChars as_ bs

def strLe (a b : String) : Bool := strLeChars a.data b.data

/-- Insert into a sorted list of strings. -/
def insertSorted (x : String) : List String → List String
  | [] => [x]
  | y :: ys => if strLe x y then x :: y :: ys else y :: insertSorted x ys

/-- Sort strings ascending (Go sort.Strings on the accumulated pairs). -/
def sortStrings : List String → List String
  | [] => []
  | x :: xs => insertSorted x (sortStrings xs)

/-- Keep the first occurrence of each query key (net/url Values.Get). -/
def dedupByKey : List (String × String) → List (String × String)
  | [] => []
  | (k, v) :: rest => (k, v) :: (dedupByKey rest).filter (fun p => p.1 != k)

/-- Parse a query string `k1=v1&k2=v2&...` into pairs; a pair without an
equals sign has an empty value. -/
def parseQuery (l : List Char) : List (String × String) :=
  (splitCharList '&' l).map fun item =>
    match splitOnFirst '=' item with
    | some (k, v) => (String.mk k, String.mk v)
    | none => (String.mk item, "")
where
  splitCharList (c : Char) : List Char → List (List Char)
    | [] => [[]]
    | x :: xs =>
      let rest := splitCharList c xs
      if x == c then [] :: rest
      else
        match rest with
        | r :: rs => (x :: r) :: rs
        | [] => [[x]]

/-- Model of pq.ParseURL. -/
def pqParseURL (url : String) : Except String String :=
  match splitOnMarker "://".data url.data with
  | none => Except.error "invalid connection protocol"
  | some (schemeChars, rest) =>
    let scheme := String.mk schemeChars
    if scheme != "postgres" && scheme != "postgresql" then
      Except.error ("invalid connection protocol: " ++ scheme)
    else
      -- the authority extends to the first slash or question mark
      let authority := rest.takeWhile (fun c => c != '/' && c != '?')
      let afterAuth := rest.drop authority.length
      let (pathChars, queryChars) :=
        match afterAuth with
        | '/' :: more =>
          let p := more.takeWhile (fun c => c != '?')
          (p, (more.drop p.length).drop 1)
        | '?' :: more => ([], more)
        | _ => ([], [])
      let (userPart, hostPort) :=
        match splitOnLast '@' authority with
        | some (u, h) => (some u, h)
        | none => (none, authority)
      let kvs0 : List String := []
      let kvs1 :=
        match userPart with
        | none => kvs0
        | some u =>
          match splitOnFirst ':' u with
          | some (nm, pw) =>
            accrue "password" (String.mk pw) (accrue "user" (String.mk nm) kvs0)
          | none => accrue "user" (String.mk u) kvs0
      let kvs2 :=
        match splitOnLast ':' hostPort with
        | some (h, p) =>
          -- net.SplitHostPort fails when the host part still contains a
          -- colon (too many colons); pq then records the whole host string
          if h.contains ':' then accrue "host" (String.mk hostPort) kvs1
          else accrue "port" (String.mk p) (accrue "host" (String.mk h) kvs1)
        | none => accrue "host" (String.mk hostPort) kvs1
      let kvs3 := accrue "dbname" (String.mk pathChars) kvs2
      let kvs4 := (dedupByKey (parseQuery queryChars)).foldl
        (fun acc kv => accrue kv.1 kv.2 acc) kvs3
      let sorted := sortStrings kvs4
      Except.ok (String.intercalate " " sorted)

/-! ## Data model (dbconf.go) -/

/-- Dialects known to the repository. The Go value is an interface
(`SqlDialect`); a nil interface is modelled as `Option.none` at use sites. -/
inductive SqlDialect where
  | postgres
  deriving DecidableEq, Repr

/-- DBDriver encapsulates the info needed to work with a specific database
driver (dbconf.go). `Dialect` is `none` when the Go interface value is nil. -/
structure DBDriver where
  Name : String
  OpenStr : String
  Import : String
  Dialect : Option SqlDialect
  deriving DecidableEq, Repr

structure DBConf where
  MigrationsDir : String
  Env : String
  Driver : DBDriver
  PgSchema : String
  deriving DecidableEq, Repr

/-- Create a new DBDriver and populate driver specific fields for drivers
that we know about (dbconf.go newDBDriver). -/
def newDBDriver (name opn : String) : DBDriver :=
  let d : DBDriver := { Name := name, OpenStr := opn, Import := "", Dialect := none }
  if name == "postgres" then
    { d with Import := "github.com/lib/pq", Dialect := some SqlDialect.postgres }
  else d

/-- ensure we have enough info about this driver (dbconf.go IsValid). -/
def DBDriver.IsValid (drv : DBDriver) : Bool :=
  drv.Import.length > 0 && drv.Dialect.isSome

/-- Modelled from the spec: `dialectByName` lives in the repository outside
the provided source file. Per the spec, the registry recognizes the
Postgres family and resolving an unrecognized dialect name yields a null
dialect. -/
def dialectByName (nm : String) : Option SqlDialect :=
  if nm == "postgres" then some SqlDialect.postgres else none

/-- A parsed YAML configuration file, as the flattened mapping from dotted
key path (e.g. `development.driver`) to value that gypsy's `Get` reads. -/
def YamlFile : Type := List (String × String)

/-- Model of gypsy `yaml.File.Get`: value at a key path, or an error when
the key is absent. -/
def yamlGet (f : YamlFile) (key : String) : Except String String :=
  match f.lookup key with
  | some v => Except.ok v
  | none => Except.error ("key not found: " ++ key)

/-- Errors returned by `NewDBConf`. The Go code returns the yaml error for a
missing key and `errors.New(fmt.Sprintf("Invalid DBConf: %v", d))` for an
invalid driver spec; the error identity is modelled structurally. -/
inductive ConfErr where
  | yamlErr (msg : String)
  | invalidConf (d : DBDriver)
  deriving DecidableEq, Repr

/-- Model of filepath.Join for a clean base path and a fixed subfolder. -/
def filepathJoin (a b : String) : String :=
  if a.isEmpty then b else a ++ "/" ++ b

/-- The postgres URL normalization step of NewDBConf: if the driver is
postgres and pq.ParseURL succeeds with a non-empty result, use the parsed
form; otherwise keep the open string unchanged. -/
def normalizeOpen (drv opn : String) : String :=
  if drv == "postgres" then
    match pqParseURL opn with
    | Except.ok parsedURL => if parsedURL != "" then parsedURL else opn
    | Except.error _ => opn
  else opn

/-- The driver-resolution portion of NewDBConf (dbconf.go): read and
expand the driver and open values, normalize postgres URLs, consult the
registry, apply the file's import and dialect overrides, and validate. -/
def resolveDriver (f : YamlFile) (envv : EnvMap) (env : String) :
    Except ConfErr DBDriver :=
  match yamlGet f (env ++ ".driver") with
  | Except.error e => Except.error (ConfErr.yamlErr e)
  | Except.ok drv0 =>
    let drv := osExpandEnv envv drv0
    match yamlGet f (env ++ ".open") with
    | Except.error e => Except.error (ConfErr.yamlErr e)
    | Except.ok open0 =>
      let opn := normalizeOpen drv (osExpandEnv envv open0)
      let d := newDBDriver drv opn
      let d :=
        match yamlGet f (env ++ ".import") with
        | Except.ok imprt => { d with Import := imprt }
        | Except.error _ => d
      let d :=
        match yamlGet f (env ++ ".dialect") with
        | Except.ok dia => { d with Dialect := dialectByName dia }
        | Except.error _ => d
      if !d.IsValid then Except.error (ConfErr.invalidConf d)
      else Except.ok d

/-- extract configuration details from the given file (dbconf.go NewDBConf).
The already-parsed configuration file and the process environment are
explicit inputs; `p`, `env` and `pgschema` are the Go arguments. -/
def NewDBConf (f : YamlFile) (envv : EnvMap) (p env pgschema : String) :
    Except ConfErr DBConf :=
  (resolveDriver f envv env).map fun d =>
    { MigrationsDir := filepathJoin p "migrations"
      Env := env
      Driver := d
      PgSchema := pgschema }

/-! ## Model of the regexp "dbname=([^ ]+)" operations

Go's regexp with this pattern finds the leftmost match; the capture group
`[^ ]+` greedily takes the maximal run of characters other than the ASCII
space. `FindStringSubmatch` returns the first such match,
`ReplaceAllLiteralString` replaces every successive non-overlapping
leftmost match with the literal replacement. -/

def dbnameMarker : List Char := "dbname=".data

/-- Strip an expected leading character sequence. -/
def stripLeading : List Char → List Char → Option (List Char)
  | [], l => some l
  | _ :: _, [] => none
  | p :: ps, c :: cs => if c == p then stripLeading ps cs else none

def isNonSpace (c : Char) : Bool := c != ' '

/-- Try to match `dbname=([^ ]+)` at the head of the list; on success
return the capture (the maximal non-space run) and the remainder after
the whole match. -/
def tryDbnameMatch (l : List Char) : Option (List Char × List Char) :=
  match stripLeading dbnameMarker l with
  | none => none
  | some r =>
    let nm := r.takeWhile isNonSpace
    if nm.isEmpty then none else some (nm, r.dropWhile isNonSpace)

/-- Leftmost match of `dbname=([^ ]+)`: the capture of the first position
(scanning left to right) where the pattern matches. Models
`FindStringSubmatch`'s capture group. -/
def dbnameFindL : List Char → Option (List Char)
  | [] => none
  | c :: cs =>
    match tryDbnameMatch (c :: cs) with
    | some (nm, _) => some nm
    | none => dbnameFindL cs

/-- Fuel-indexed replacement of every non-overlapping leftmost match of
`dbname=([^ ]+)` with the literal `dbname=postgres`; fuel equal to the
input length suffices because every step consumes at least one character. -/
def dbnameReplaceFuel : Nat → List Char → List Char
  | 0, l => l
  | _ + 1, [] => []
  | n + 1, c :: cs =>
    match tryDbnameMatch (c :: cs) with
    | some (_, rest) => "dbname=postgres".data ++ dbnameReplaceFuel n rest
    | none => c :: dbnameReplaceFuel n cs

/-- Model of `regex.FindStringSubmatch`'s capture group on a string. -/
def dbnameFind (s : String) : Option String :=
  (dbnameFindL s.data).map String.mk

/-- Model of `regex.ReplaceAllLiteralString s "dbname=postgres"`. -/
def dbnameReplaceAll (s : String) : String :=
  String.mk (dbnameReplaceFuel s.data.length s.data)

/-! ## Model of the database/sql call surface and OpenDBFromDBConf

`OpenDBFromDBConf` performs up to six external calls, each at most once:
the initial `sql.Open`, the `Ping`, the maintenance `sql.Open`, the
`CREATE DATABASE` Exec, the re-`sql.Open` of the original string, and the
`SET search_path` Exec. A `World` fixes the outcome of each call site and
the run records the calls it makes as a trace of `Effect`s. -/

/-- A Go error value as observed by the code: either a `*pq.Error` carrying
a code (the type assertion in OpenDBFromDBConf succeeds on it) or any
other error. -/
inductive GoErr where
  | pqErr (code msg : String)
  | plain (msg : String)
  deriving DecidableEq, Repr

/-- The classifier applied to the ping error: a Postgres error with code
3D000 means the target database does not exist. -/
def isMissingDbErr : GoErr → Bool
  | GoErr.pqErr code _ => code == "3D000"
  | GoErr.plain _ => false

/-- Whether the (possibly absent) ping error sends the code into the
provisioning branch: the type assertion to a Postgres error succeeds and
its code is 3D000. -/
def pingIndicatesMissingDb : Option GoErr → Bool
  | some e => isMissingDbErr e
  | none => false

/-- Observable actions of OpenDBFromDBConf, in order. Connections are
identified by the connection string they were opened with. -/
inductive Effect where
  | sqlOpen (driverName dsn : String)
  | ping (dsn : String)
  | exec (dsn stmt : String)
  | closeConn (dsn : String)
  | printLine (s : String)
  deriving DecidableEq, Repr

/-- Result of a run of OpenDBFromDBConf. `ok db` is a return with a nil
error (the handle itself may be nil, which Go permits); `err e` is a
return with a non-nil error and nil handle; `panicked` is a nil-pointer
dereference (method call on a nil handle). -/
inductive OpenOutcome where
  | ok (db : Option String)
  | err (e : GoErr)
  | panicked
  deriving DecidableEq, Repr

/-- Outcomes of the six external call sites of OpenDBFromDBConf. For the
open/exec sites `none` means success and `some msg` the error returned by
the call; for the ping site `none` means success and `some e` the error
value the probe produced. -/
structure World where
  openMain : Option String
  pingRes : Option GoErr
  openMaint : Option String
  execCreate : Option String
  openReopen : Option String
  execSchema : Option String
  deriving DecidableEq, Repr

/-- The final section of OpenDBFromDBConf: if a postgres schema has been
specified, apply it. `db` is the current handle (`none` when a failed
reopen left it nil — Exec then dereferences a nil pointer). -/
def schemaStep (w : World) (conf : DBConf) (db : Option String)
    (es : List Effect) : OpenOutcome × List Effect :=
  if conf.Driver.Name == "postgres" && conf.PgSchema != "" then
    match db with
    | none => (OpenOutcome.panicked, es)
    | some dsn =>
      let es := es ++ [Effect.exec dsn ("SET search_path TO " ++ conf.PgSchema)]
      match w.execSchema with
      | some m => (OpenOutcome.err (GoErr.plain m), es)
      | none => (OpenOutcome.ok db, es)
  else (OpenOutcome.ok db, es)

/-- Append the deferred `dbm.Close()` of the maintenance connection as the
last action before the function returns. -/
def withMaintClose (r : OpenOutcome × List Effect) (master : String) :
    OpenOutcome × List Effect :=
  (r.1, r.2 ++ [Effect.closeConn master])

/-- OpenDBFromDBConf wraps database/sql.DB.Open() and configures the newly
opened DB based on the given DBConf (dbconf.go). The branching structure
follows the Go function line by line; external call outcomes come from
`w`. -/
def OpenDBFromDBConf (w : World) (conf : DBConf) : OpenOutcome × List Effect :=
  let name := conf.Driver.Name
  let openStr := conf.Driver.OpenStr
  let es := [Effect.sqlOpen name openStr]
  match w.openMain with
  | some msg => (OpenOutcome.err (GoErr.plain msg), es)
  | none =>
    let es := es ++ [Effect.ping openStr]
    if pingIndicatesMissingDb w.pingRes then
      let es := es ++ [Effect.printLine "Database does not exist. Trying to create it."]
      match dbnameFind openStr with
      | none =>
        (OpenOutcome.err (GoErr.plain "Can\x27t create database with unknown name"), es)
      | some dbname =>
        let master := dbnameReplaceAll openStr
        let es := es ++ [Effect.sqlOpen name master]
        match w.openMaint with
        | some m => (OpenOutcome.err (GoErr.plain m), es)
        | none =>
          let es := es ++ [Effect.exec master ("CREATE DATABASE " ++ dbname)]
          match w.execCreate with
          | some m => withMaintClose (OpenOutcome.err (GoErr.plain m), es) master
          | none =>
            let es := es ++ [Effect.sqlOpen name openStr]
            let db :=
              match w.openReopen with
              | some _ => none
              | none => some openStr
            withMaintClose (schemaStep w conf db es) master
    else
      schemaStep w conf (some openStr) es

/-- Number of times a statement is executed in a trace. -/
def countExecStmt (stmt : String) (es : List Effect) : Nat :=
  (es.filter fun ef =>
    match ef with
    | Effect.exec _ s => s == stmt
    | _ => false).length

/-! ## Helper lemmas -/

theorem strData_append (s t : String) : (s ++ t).data = s.data ++ t.data := rfl

theorem create_ne_set (a b : String) :
    ("CREATE DATABASE " ++ a) ≠ ("SET search_path TO " ++ b) := by
  intro h
  have h2 : ("CREATE DATABASE " ++ a).data = ("SET search_path TO " ++ b).data :=
    congrArg String.data h
  rw [strData_append, strData_append] at h2
  have hC : ("CREATE DATABASE ").data = 'C' :: ("REATE DATABASE ").data := by decide
  have hS : ("SET search_path TO ").data = 'S' :: ("ET search_path TO ").data := by decide
  rw [hC, hS, List.cons_append, List.cons_append] at h2
  exact absurd (List.cons.inj h2).1 (by decide)

/-! ## Concrete fixtures used by witnesses and counterexamples -/

/-- A valid postgres driver spec as produced by the registry. -/
def pgDriverFix : DBDriver :=
  { Name := "postgres"
    OpenStr := "host=h dbname=d"
    Import := "github.com/lib/pq"
    Dialect := some SqlDialect.postgres }

def confFix : DBConf :=
  { MigrationsDir := "b/migrations"
    Env := "development"
    Driver := pgDriverFix
    PgSchema := "" }

/-- The all-successful world. -/
def worldOkFix : World :=
  { openMain := none
    pingRes := none
    openMaint := none
    execCreate := none
    openReopen := none
    execSchema := none }

/-- A world in which the reachability probe fails with an error that the
classifier does not recognize as missing-database. -/
def wProbeFailFix : World :=
  { worldOkFix with pingRes := some (GoErr.plain "connection refused") }

/-- A world in which provisioning succeeds but the subsequent re-open of
the original connection string fails. -/
def wReopenFailFix : World :=
  { worldOkFix with
      pingRes := some (GoErr.pqErr "3D000" "database does not exist")
      openReopen := some "reopen failed" }

/-! ## Claims -/

/-- C1, counterexample: the probe after the initial open fails with
"connection refused", which the classifier does not recognize as
missing-database, yet OpenDBFromDBConf returns the connection handle with
a nil error instead of a non-nil error. -/
theorem probe_failure_counterexample :
    isMissingDbErr (GoErr.plain "connection refused") = false ∧
    OpenDBFromDBConf wProbeFailFix confFix =
      (OpenOutcome.ok (some "host=h dbname=d"),
       [Effect.sqlOpen "postgres" "host=h dbname=d",
        Effect.ping "host=h dbname=d"]) :=
  ⟨rfl, rfl⟩

/-- C1, amended: if the reachability probe after the initial open fails
with an error that the failure classifier does not recognize as
missing-database, OpenDBFromDBConf ignores the probe failure entirely: the
run is identical to one in which the probe succeeded, so the connection
handle is returned with a nil error whenever the schema step does not
fail. -/
theorem probe_failure_ignored (w : World) (conf : DBConf) (e : GoErr)
    (h1 : w.openMain = none) (h2 : w.pingRes = some e)
    (h3 : isMissingDbErr e = false) :
    OpenDBFromDBConf w conf = OpenDBFromDBConf { w with pingRes := none } conf := by
  simp only [OpenDBFromDBConf, pingIndicatesMissingDb, h1, h2, h3, schemaStep]

/-- C1, witness: the amended theorem applied to the concrete probe-failure
world. -/
theorem probe_failure_ignored_witness :
    wProbeFailFix.openMain = none ∧
    wProbeFailFix.pingRes = some (GoErr.plain "connection refused") ∧
    isMissingDbErr (GoErr.plain "connection refused") = false ∧
    OpenDBFromDBConf wProbeFailFix confFix =
      OpenDBFromDBConf { wProbeFailFix with pingRes := none } confFix :=
  ⟨rfl, rfl, rfl,
   probe_failure_ignored wProbeFailFix confFix (GoErr.plain "connection refused")
     rfl rfl rfl⟩

/-- C2, counterexample: the missing database is created, but re-opening the
original connection string fails; OpenDBFromDBConf nevertheless returns a
nil error (with a nil handle) instead of returning the open failure. -/
theorem reopen_failure_counterexample :
    wReopenFailFix.openReopen = some "reopen failed" ∧
    (OpenDBFromDBConf wReopenFailFix confFix).1 = OpenOutcome.ok none :=
  ⟨rfl, rfl⟩

/-- C2, amended: when re-opening the original connection string after the
CREATE DATABASE step fails, OpenDBFromDBConf ignores the failure: the
error is discarded, and the function either returns the nil handle with a
nil error, or dereferences the nil handle in the schema step (postgres
driver with a non-empty schema override). -/
theorem reopen_failure_ignored (w : World) (conf : DBConf) (e : GoErr)
    (dbname m : String)
    (h1 : w.openMain = none) (h2 : w.pingRes = some e)
    (h3 : isMissingDbErr e = true)
    (h4 : dbnameFind conf.Driver.OpenStr = some dbname)
    (h5 : w.openMaint = none) (h6 : w.execCreate = none)
    (h7 : w.openReopen = some m) :
    (OpenDBFromDBConf w conf).1 =
      if conf.Driver.Name == "postgres" && conf.PgSchema != "" then
        OpenOutcome.panicked
      else OpenOutcome.ok none := by
  by_cases hc : (conf.Driver.Name == "postgres" && conf.PgSchema != "") = true <;>
    simp [OpenDBFromDBConf, pingIndicatesMissingDb, h1, h2, h3, h4, h5, h6, h7, withMaintClose, schemaStep, hc]

/-- C2, witness: the amended theorem applied to the concrete reopen-failure
world. -/
theorem reopen_failure_ignored_witness :
    dbnameFind confFix.Driver.OpenStr = some "d" ∧
    wReopenFailFix.openReopen = some "reopen failed" ∧
    (OpenDBFromDBConf wReopenFailFix confFix).1 =
      (if confFix.Driver.Name == "postgres" && confFix.PgSchema != "" then
        OpenOutcome.panicked
      else OpenOutcome.ok none) :=
  ⟨rfl, rfl,
   reopen_failure_ignored wReopenFailFix confFix
     (GoErr.pqErr "3D000" "database does not exist") "d" "reopen failed"
     rfl rfl rfl rfl rfl rfl rfl⟩

/-- C4 (confirmed): when provisioning is entered and the open string
contains no substring matching the dbname pattern, OpenDBFromDBConf
returns the provisioning error and the trace shows no maintenance
connection and no CREATE DATABASE statement: it consists solely of the
initial open, the probe, and the advisory notice. -/
theorem no_dbname_aborts_provisioning (w : World) (conf : DBConf) (e : GoErr)
    (h1 : w.openMain = none) (h2 : w.pingRes = some e)
    (h3 : isMissingDbErr e = true)
    (h4 : dbnameFind conf.Driver.OpenStr = none) :
    OpenDBFromDBConf w conf =
      (OpenOutcome.err (GoErr.plain "Can\x27t create database with unknown name"),
       [Effect.sqlOpen conf.Driver.Name conf.Driver.OpenStr,
        Effect.ping conf.Driver.OpenStr,
        Effect.printLine "Database does not exist. Trying to create it."]) := by
  simp [OpenDBFromDBConf, pingIndicatesMissingDb, h1, h2, h3, h4]

/-- Counting a statement distributes over trace concatenation. -/
theorem countExecStmt_append (stmt : String) (a b : List Effect) :
    countExecStmt stmt (a ++ b) = countExecStmt stmt a + countExecStmt stmt b := by
  simp [countExecStmt, List.filter_append]

/-- When the schema step ends in a nil-error return, its trace extends the
incoming trace with the schema statement exactly when the driver is
postgres and the schema override is non-empty. -/
theorem schemaStep_fst_ok_count (w : World) (conf : DBConf) (db0 : Option String)
    (es0 : List Effect) (db : Option String)
    (h : (schemaStep w conf db0 es0).1 = OpenOutcome.ok db) :
    countExecStmt ("SET search_path TO " ++ conf.PgSchema) (schemaStep w conf db0 es0).2 =
      countExecStmt ("SET search_path TO " ++ conf.PgSchema) es0 +
        (if conf.Driver.Name == "postgres" && conf.PgSchema != "" then 1 else 0) := by
  unfold schemaStep at h ⊢
  by_cases hc : (conf.Driver.Name == "postgres" && conf.PgSchema != "") = true
  · rw [if_pos hc] at h ⊢
    cases db0 with
    | none => simp at h
    | some dsn =>
      cases hx : w.execSchema with
      | some m => simp [hx] at h
      | none =>
        simp only [hx]
        simp [countExecStmt, List.filter_append, hc]
  · rw [if_neg hc] at h ⊢
    simp [hc]

/-- A failing schema statement cannot end in a nil-error return. -/
theorem schemaStep_some_not_ok (w : World) (conf : DBConf) (m : String)
    (hcond : (conf.Driver.Name == "postgres" && conf.PgSchema != "") = true)
    (hx : w.execSchema = some m) (db0 : Option String) (es0 : List Effect)
    (db : Option String) :
    (schemaStep w conf db0 es0).1 ≠ OpenOutcome.ok db := by
  unfold schemaStep
  rw [if_pos hcond]
  cases db0 <;> simp [hx]

/-- Every successful run executes the schema statement the right number of
times. -/
theorem openDB_ok_schema_count (w : World) (conf : DBConf) (db : Option String)
    (es : List Effect)
    (h : OpenDBFromDBConf w conf = (OpenOutcome.ok db, es)) :
    countExecStmt ("SET search_path TO " ++ conf.PgSchema) es =
      if conf.Driver.Name == "postgres" && conf.PgSchema != "" then 1 else 0 := by
  simp only [OpenDBFromDBConf] at h
  cases hom : w.openMain with
  | some m => rw [hom] at h; exact absurd h (by simp)
  | none =>
    rw [hom] at h
    by_cases hpv : pingIndicatesMissingDb w.pingRes = true
    · rw [if_pos hpv] at h
      cases hdf : dbnameFind conf.Driver.OpenStr with
      | none => rw [hdf] at h; exact absurd h (by simp)
      | some dbname =>
        rw [hdf] at h
        cases homt : w.openMaint with
        | some m => rw [homt] at h; exact absurd h (by simp)
        | none =>
          rw [homt] at h
          cases hec : w.execCreate with
          | some m => rw [hec] at h; exact absurd h (by simp [withMaintClose])
          | none =>
            rw [hec] at h
            unfold withMaintClose at h
            have h1 := congrArg Prod.fst h
            have h2 := congrArg Prod.snd h
            simp only [] at h1 h2
            have hcount := schemaStep_fst_ok_count _ _ _ _ _ h1
            have hcr : (("CREATE DATABASE " ++ dbname) ==
                ("SET search_path TO " ++ conf.PgSchema)) = false :=
              beq_eq_false_iff_ne.mpr (create_ne_set _ _)
            rw [← h2, countExecStmt_append, hcount]
            simp [countExecStmt, hcr]
    · rw [if_neg hpv] at h
      have h1 := congrArg Prod.fst h
      have h2 := congrArg Prod.snd h
      simp only [] at h1 h2
      have hcount := schemaStep_fst_ok_count _ _ _ _ _ h1
      rw [← h2, hcount]
      simp [countExecStmt]

/-- A run in which the schema statement fails never returns with a nil
error. -/
theorem openDB_schema_fail_not_ok (w : World) (conf : DBConf) (m : String)
    (hn : conf.Driver.Name = "postgres") (hs : conf.PgSchema ≠ "")
    (hx : w.execSchema = some m) (db : Option String) (es : List Effect) :
    OpenDBFromDBConf w conf ≠ (OpenOutcome.ok db, es) := by
  have hcond : (conf.Driver.Name == "postgres" && conf.PgSchema != "") = true := by
    rw [hn]; simp [hs]
  intro h
  simp only [OpenDBFromDBConf] at h
  cases hom : w.openMain with
  | some m2 => rw [hom] at h; exact absurd h (by simp)
  | none =>
    rw [hom] at h
    by_cases hpv : pingIndicatesMissingDb w.pingRes = true
    · rw [if_pos hpv] at h
      cases hdf : dbnameFind conf.Driver.OpenStr with
      | none => rw [hdf] at h; exact absurd h (by simp)
      | some dbname =>
        rw [hdf] at h
        cases homt : w.openMaint with
        | some m2 => rw [homt] at h; exact absurd h (by simp)
        | none =>
          rw [homt] at h
          cases hec : w.execCreate with
          | some m2 => rw [hec] at h; exact absurd h (by simp [withMaintClose])
          | none =>
            rw [hec] at h
            unfold withMaintClose at h
            have h1 := congrArg Prod.fst h
            simp only [] at h1
            exact schemaStep_some_not_ok w conf m hcond hx _ _ _ h1
    · rw [if_neg hpv] at h
      have h1 := congrArg Prod.fst h
      simp only [] at h1
      exact schemaStep_some_not_ok w conf m hcond hx _ _ _ h1

/-- The fixture configuration with a schema override. -/
def confTenantFix : DBConf := { confFix with PgSchema := "tenant_a" }

/-- C7 (confirmed): on every run that returns a handle with a nil error the
statement SET search_path TO (schemaOverride), formed verbatim by string
concatenation, appears in the trace exactly once when the driver name is
postgres and the schema override is non-empty, and zero times otherwise;
and when that statement fails, OpenDBFromDBConf never returns with a nil
error. -/
theorem schema_statement_exactly_once :
    (∀ w conf db es, OpenDBFromDBConf w conf = (OpenOutcome.ok db, es) →
      countExecStmt ("SET search_path TO " ++ conf.PgSchema) es =
        if conf.Driver.Name == "postgres" && conf.PgSchema != "" then 1 else 0) ∧
    (∀ w conf m db es, conf.Driver.Name = "postgres" → conf.PgSchema ≠ "" →
      w.execSchema = some m →
      OpenDBFromDBConf w conf ≠ (OpenOutcome.ok db, es)) :=
  ⟨fun w conf db es h => openDB_ok_schema_count w conf db es h,
   fun w conf m db es hn hs hx => openDB_schema_fail_not_ok w conf m hn hs hx db es⟩

/-- C7, witness: a successful postgres run with schemaOverride tenant_a
executes the schema statement exactly once. -/
theorem schema_statement_exactly_once_witness :
    OpenDBFromDBConf worldOkFix confTenantFix =
      (OpenOutcome.ok (some "host=h dbname=d"),
       [Effect.sqlOpen "postgres" "host=h dbname=d",
        Effect.ping "host=h dbname=d",
        Effect.exec "host=h dbname=d" "SET search_path TO tenant_a"]) ∧
    countExecStmt ("SET search_path TO " ++ confTenantFix.PgSchema)
        [Effect.sqlOpen "postgres" "host=h dbname=d",
         Effect.ping "host=h dbname=d",
         Effect.exec "host=h dbname=d" "SET search_path TO tenant_a"] =
      (if confTenantFix.Driver.Name == "postgres" && confTenantFix.PgSchema != ""
       then 1 else 0) :=
  ⟨rfl,
   schema_statement_exactly_once.1 worldOkFix confTenantFix
     (some "host=h dbname=d")
     [Effect.sqlOpen "postgres" "host=h dbname=d",
      Effect.ping "host=h dbname=d",
      Effect.exec "host=h dbname=d" "SET search_path TO tenant_a"] rfl⟩

/-- C8 (confirmed): whenever the maintenance connection was successfully
opened during provisioning, the trace of the run contains its close,
whatever the outcome of the CREATE DATABASE statement, the reopen and the
schema step. -/
theorem maintenance_conn_closed (w : World) (conf : DBConf) (e : GoErr)
    (dbname : String)
    (h1 : w.openMain = none) (h2 : w.pingRes = some e)
    (h3 : isMissingDbErr e = true)
    (h4 : dbnameFind conf.Driver.OpenStr = some dbname)
    (h5 : w.openMaint = none) :
    Effect.closeConn (dbnameReplaceAll conf.Driver.OpenStr) ∈
      (OpenDBFromDBConf w conf).2 := by
  simp only [OpenDBFromDBConf, pingIndicatesMissingDb, h1, h2, h3, h4, h5, if_true]
  cases hec : w.execCreate with
  | some m => simp [withMaintClose]
  | none => simp [withMaintClose]

/-- C8, witness: the provisioning run on the fixture closes the
maintenance connection. -/
theorem maintenance_conn_closed_witness :
    dbnameFind confFix.Driver.OpenStr = some "d" ∧
    Effect.closeConn (dbnameReplaceAll confFix.Driver.OpenStr) ∈
      (OpenDBFromDBConf
        { worldOkFix with pingRes := some (GoErr.pqErr "3D000" "m") } confFix).2 :=
  ⟨rfl,
   maintenance_conn_closed
     { worldOkFix with pingRes := some (GoErr.pqErr "3D000" "m") } confFix
     (GoErr.pqErr "3D000" "m") "d" rfl rfl rfl rfl rfl⟩

/-- C4, witness: a configuration whose open string has no dbname key. -/
theorem no_dbname_aborts_provisioning_witness :
    dbnameFind "host=h" = none ∧
    OpenDBFromDBConf { worldOkFix with pingRes := some (GoErr.pqErr "3D000" "m") }
      { confFix with Driver := { pgDriverFix with OpenStr := "host=h" } } =
      (OpenOutcome.err (GoErr.plain "Can\x27t create database with unknown name"),
       [Effect.sqlOpen "postgres" "host=h",
        Effect.ping "host=h",
        Effect.printLine "Database does not exist. Trying to create it."]) :=
  ⟨rfl,
   no_dbname_aborts_provisioning
     { worldOkFix with pingRes := some (GoErr.pqErr "3D000" "m") }
     { confFix with Driver := { pgDriverFix with OpenStr := "host=h" } }
     (GoErr.pqErr "3D000" "m") rfl rfl rfl rfl⟩

/-! ## Resolution helpers and fixtures -/

theorem newDBDriver_Name (name opn : String) : (newDBDriver name opn).Name = name := by
  unfold newDBDriver; split <;> rfl

theorem newDBDriver_OpenStr (name opn : String) :
    (newDBDriver name opn).OpenStr = opn := by
  unfold newDBDriver; split <;> rfl

theorem newDBDriver_unknown (nm opn : String) (h : nm ≠ "postgres") :
    (newDBDriver nm opn).Import = "" ∧ (newDBDriver nm opn).Dialect = none := by
  unfold newDBDriver
  rw [if_neg (by simp [h])]
  exact ⟨rfl, rfl⟩

theorem yamlGet_lookup_none (f : YamlFile) (k : String) (h : f.lookup k = none) :
    yamlGet f k = Except.error ("key not found: " ++ k) := by
  unfold yamlGet; rw [h]

theorem string_ne_empty_length (s : String) (h : s ≠ "") : 0 < s.length := by
  cases s with
  | mk data =>
    cases data with
    | nil => exact absurd rfl h
    | cons c cs => simp [String.length]

theorem normalizeOpen_parse_ok (opn u : String) (hu : pqParseURL opn = Except.ok u)
    (hne : u ≠ "") : normalizeOpen "postgres" opn = u := by
  unfold normalizeOpen
  rw [if_pos (by rfl), hu]
  simp [hne]

theorem normalizeOpen_parse_err (drv opn msg : String)
    (h : pqParseURL opn = Except.error msg) : normalizeOpen drv opn = opn := by
  unfold normalizeOpen
  split
  · rw [h]
  · rfl

/-- A successful NewDBConf carries a successfully resolved driver. -/
theorem NewDBConf_ok_driver (f : YamlFile) (envv : EnvMap) (p env sch : String)
    (conf : DBConf) (h : NewDBConf f envv p env sch = Except.ok conf) :
    resolveDriver f envv env = Except.ok conf.Driver := by
  unfold NewDBConf at h
  cases hr : resolveDriver f envv env with
  | error e => rw [hr] at h; exact Except.noConfusion h
  | ok d =>
    rw [hr] at h
    simp only [Except.map, Except.ok.injEq] at h
    subst h
    rfl

/-- A resolved driver's name is the expanded driver value and its open
string is the normalization of the expanded open value; the import and
dialect overrides leave both untouched. -/
theorem resolveDriver_name_open (f : YamlFile) (envv : EnvMap) (env d0 o0 : String)
    (d : DBDriver)
    (h1 : yamlGet f (env ++ ".driver") = Except.ok d0)
    (h2 : yamlGet f (env ++ ".open") = Except.ok o0)
    (h : resolveDriver f envv env = Except.ok d) :
    d.Name = osExpandEnv envv d0 ∧
      d.OpenStr = normalizeOpen (osExpandEnv envv d0) (osExpandEnv envv o0) := by
  unfold resolveDriver at h
  simp only [h1, h2] at h
  cases hi : yamlGet f (env ++ ".import") <;>
    cases hd : yamlGet f (env ++ ".dialect") <;>
    simp only [hi, hd] at h <;>
    split at h
  all_goals try exact Except.noConfusion h
  all_goals
    simp only [Except.ok.injEq] at h
    subst h
    simp [newDBDriver_Name, newDBDriver_OpenStr]

def envNone : EnvMap := fun _ => none

def yamlFix : YamlFile :=
  [("development.driver", "postgres"), ("development.open", "host=h dbname=d")]

def envDbFix : EnvMap := fun n => if n = "DBHOST" then some "db1" else none

def yamlEnvFix : YamlFile :=
  [("development.driver", "postgres"),
   ("development.open", "host=$DBHOST dbname=${DBNAME}")]

def yamlURLFix : YamlFile :=
  [("development.driver", "postgres"),
   ("development.open", "postgres://u:p@host:5432/mydb")]

def yamlBothOverridesFix : YamlFile :=
  [("development.driver", "foo"), ("development.open", "x"),
   ("development.import", ""), ("development.dialect", "postgres")]

def yamlGoodOverridesFix : YamlFile :=
  [("development.driver", "foo"), ("development.open", "x"),
   ("development.import", "github.com/lib/pq"), ("development.dialect", "postgres")]

def yamlUnknownFix : YamlFile :=
  [("development.driver", "foo"), ("development.open", "x")]

/-- The configuration resolved from yamlFix with schema argument s. -/
def confResolvedFix : DBConf :=
  { MigrationsDir := "b/migrations"
    Env := "development"
    Driver := pgDriverFix
    PgSchema := "s" }

/-- C6 (confirmed): every successful resolution yields a configuration
whose migrations directory is the base path joined with the fixed
subfolder migrations, whose environment is the given environment argument,
and whose schema override is the caller-supplied schema argument. -/
theorem resolve_fixed_fields (f : YamlFile) (envv : EnvMap) (p env sch : String)
    (conf : DBConf) (h : NewDBConf f envv p env sch = Except.ok conf) :
    conf.MigrationsDir = filepathJoin p "migrations" ∧ conf.Env = env ∧
      conf.PgSchema = sch := by
  unfold NewDBConf at h
  cases hr : resolveDriver f envv env with
  | error e => rw [hr] at h; exact Except.noConfusion h
  | ok d =>
    rw [hr] at h
    simp only [Except.map, Except.ok.injEq] at h
    subst h
    exact ⟨rfl, rfl, rfl⟩

/-- C6, witness: the fixture resolution carries the derived directory, the
environment and the schema argument. -/
theorem resolve_fixed_fields_witness :
    NewDBConf yamlFix envNone "b" "development" "s" = Except.ok confResolvedFix ∧
    (confResolvedFix.MigrationsDir = filepathJoin "b" "migrations" ∧
     confResolvedFix.Env = "development" ∧ confResolvedFix.PgSchema = "s") :=
  ⟨rfl, resolve_fixed_fields yamlFix envNone "b" "development" "s" confResolvedFix rfl⟩

/-- C9 (confirmed): the resolved driver name and open string are computed
from the environment-variable expansion of the file values (unset
variables expanding to the empty string, never an error); concretely, a
dollar-name reference, a dollar-brace reference and an unset variable all
expand as specified, and the end-to-end resolution embeds the expanded
values. -/
theorem env_var_expansion :
    (∀ f envv p env sch conf d0 o0,
        yamlGet f (env ++ ".driver") = Except.ok d0 →
        yamlGet f (env ++ ".open") = Except.ok o0 →
        NewDBConf f envv p env sch = Except.ok conf →
        conf.Driver.Name = osExpandEnv envv d0 ∧
          conf.Driver.OpenStr =
            normalizeOpen (osExpandEnv envv d0) (osExpandEnv envv o0)) ∧
    osExpandEnv envDbFix "host=$DBHOST password=${DBPASS} dbname=x" =
      "host=db1 password= dbname=x" ∧
    NewDBConf yamlEnvFix envDbFix "b" "development" "" =
      Except.ok
        { MigrationsDir := "b/migrations", Env := "development",
          Driver := { Name := "postgres", OpenStr := "host=db1 dbname=",
                      Import := "github.com/lib/pq",
                      Dialect := some SqlDialect.postgres },
          PgSchema := "" } := by
  refine ⟨?_, rfl, rfl⟩
  intro f envv p env sch conf d0 o0 h1 h2 h
  exact resolveDriver_name_open f envv env d0 o0 conf.Driver h1 h2
    (NewDBConf_ok_driver f envv p env sch conf h)

/-- C9, witness: the expansion equations instantiated on the fixture whose
open value uses both reference forms and an unset variable. -/
theorem env_var_expansion_witness :
    yamlGet yamlEnvFix ("development" ++ ".driver") = Except.ok "postgres" ∧
    yamlGet yamlEnvFix ("development" ++ ".open") =
      Except.ok "host=$DBHOST dbname=${DBNAME}" ∧
    ({ MigrationsDir := "b/migrations", Env := "development",
       Driver := { Name := "postgres", OpenStr := "host=db1 dbname=",
                   Import := "github.com/lib/pq",
                   Dialect := some SqlDialect.postgres },
       PgSchema := "" } : DBConf).Driver.Name =
        osExpandEnv envDbFix "postgres" ∧
    ({ MigrationsDir := "b/migrations", Env := "development",
       Driver := { Name := "postgres", OpenStr := "host=db1 dbname=",
                   Import := "github.com/lib/pq",
                   Dialect := some SqlDialect.postgres },
       PgSchema := "" } : DBConf).Driver.OpenStr =
        normalizeOpen (osExpandEnv envDbFix "postgres")
          (osExpandEnv envDbFix "host=$DBHOST dbname=${DBNAME}") :=
  ⟨rfl, rfl,
   (env_var_expansion.1 yamlEnvFix envDbFix "b" "development" "" _ _ _
      rfl rfl rfl).1,
   (env_var_expansion.1 yamlEnvFix envDbFix "b" "development" "" _ _ _
      rfl rfl rfl).2⟩

/-- C3 (confirmed): when the driver value resolves to postgres, a
successfully URL-parsed open value is replaced by the parsed DSN, a
failed parse leaves the open value unchanged without failing resolution;
the canonical example URL resolves to a DSN containing dbname=mydb,
extractable by the dbname pattern. -/
theorem postgres_url_rewrite :
    (∀ f envv p env sch conf d0 o0 u,
        yamlGet f (env ++ ".driver") = Except.ok d0 →
        osExpandEnv envv d0 = "postgres" →
        yamlGet f (env ++ ".open") = Except.ok o0 →
        pqParseURL (osExpandEnv envv o0) = Except.ok u → u ≠ "" →
        NewDBConf f envv p env sch = Except.ok conf →
        conf.Driver.OpenStr = u) ∧
    (∀ f envv p env sch conf d0 o0 msg,
        yamlGet f (env ++ ".driver") = Except.ok d0 →
        osExpandEnv envv d0 = "postgres" →
        yamlGet f (env ++ ".open") = Except.ok o0 →
        pqParseURL (osExpandEnv envv o0) = Except.error msg →
        NewDBConf f envv p env sch = Except.ok conf →
        conf.Driver.OpenStr = osExpandEnv envv o0) ∧
    NewDBConf yamlURLFix envNone "b" "development" "" =
      Except.ok
        { MigrationsDir := "b/migrations", Env := "development",
          Driver := { Name := "postgres",
                      OpenStr := "dbname=mydb host=host password=p port=5432 user=u",
                      Import := "github.com/lib/pq",
                      Dialect := some SqlDialect.postgres },
          PgSchema := "" } ∧
    dbnameFind "dbname=mydb host=host password=p port=5432 user=u" = some "mydb" := by
  refine ⟨?_, ?_, rfl, rfl⟩
  · intro f envv p env sch conf d0 o0 u h1 hdrv h2 hp hne h
    obtain ⟨hn, ho⟩ := resolveDriver_name_open f envv env d0 o0 conf.Driver h1 h2
      (NewDBConf_ok_driver f envv p env sch conf h)
    rw [ho, hdrv]
    exact normalizeOpen_parse_ok _ _ hp hne
  · intro f envv p env sch conf d0 o0 msg h1 hdrv h2 hp h
    obtain ⟨hn, ho⟩ := resolveDriver_name_open f envv env d0 o0 conf.Driver h1 h2
      (NewDBConf_ok_driver f envv p env sch conf h)
    rw [ho]
    exact normalizeOpen_parse_err _ _ _ hp

/-- C3, witness: the rewrite branch instantiated on the canonical URL
fixture. -/
theorem postgres_url_rewrite_witness :
    yamlGet yamlURLFix ("development" ++ ".driver") = Except.ok "postgres" ∧
    osExpandEnv envNone "postgres" = "postgres" ∧
    pqParseURL (osExpandEnv envNone "postgres://u:p@host:5432/mydb") =
      Except.ok "dbname=mydb host=host password=p port=5432 user=u" ∧
    ({ MigrationsDir := "b/migrations", Env := "development",
       Driver := { Name := "postgres",
                   OpenStr := "dbname=mydb host=host password=p port=5432 user=u",
                   Import := "github.com/lib/pq",
                   Dialect := some SqlDialect.postgres },
       PgSchema := "" } : DBConf).Driver.OpenStr =
      "dbname=mydb host=host password=p port=5432 user=u" :=
  ⟨rfl, rfl, rfl,
   postgres_url_rewrite.1 yamlURLFix envNone "b" "development" "" _ "postgres"
     "postgres://u:p@host:5432/mydb" "dbname=mydb host=host password=p port=5432 user=u"
     rfl rfl rfl rfl (by decide) rfl⟩

/-- C5, counterexample: the file supplies both overrides (an empty import
value and the dialect postgres) for an unknown driver, yet resolution
fails with the validation error. -/
theorem unknown_driver_overrides_counterexample :
    yamlGet yamlBothOverridesFix "development.import" = Except.ok "" ∧
    yamlGet yamlBothOverridesFix "development.dialect" = Except.ok "postgres" ∧
    NewDBConf yamlBothOverridesFix envNone "b" "development" "" =
      Except.error (ConfErr.invalidConf
        { Name := "foo", OpenStr := "x", Import := "",
          Dialect := some SqlDialect.postgres }) :=
  ⟨rfl, rfl, rfl⟩

/-- C5, amended: the registry yields an empty import identity and a null
dialect for unrecognized driver names without failing; with neither
override present resolution fails with the validation error; and
supplying both overrides makes resolution succeed provided the import
override is non-empty and the dialect override names a dialect known to
the registry. -/
theorem unknown_driver_validation :
    (∀ nm opn, nm ≠ "postgres" →
        (newDBDriver nm opn).Import = "" ∧ (newDBDriver nm opn).Dialect = none) ∧
    (∀ f envv p env sch d0 o0,
        yamlGet f (env ++ ".driver") = Except.ok d0 →
        osExpandEnv envv d0 ≠ "postgres" →
        yamlGet f (env ++ ".open") = Except.ok o0 →
        List.lookup (env ++ ".import") f = none →
        List.lookup (env ++ ".dialect") f = none →
        NewDBConf f envv p env sch =
          Except.error (ConfErr.invalidConf
            (newDBDriver (osExpandEnv envv d0)
              (normalizeOpen (osExpandEnv envv d0) (osExpandEnv envv o0))))) ∧
    (∀ f envv p env sch d0 o0 imp dia,
        yamlGet f (env ++ ".driver") = Except.ok d0 →
        yamlGet f (env ++ ".open") = Except.ok o0 →
        yamlGet f (env ++ ".import") = Except.ok imp → imp ≠ "" →
        yamlGet f (env ++ ".dialect") = Except.ok dia →
        (dialectByName dia).isSome = true →
        NewDBConf f envv p env sch =
          Except.ok
            { MigrationsDir := filepathJoin p "migrations", Env := env,
              Driver := { Name := osExpandEnv envv d0,
                          OpenStr := normalizeOpen (osExpandEnv envv d0)
                            (osExpandEnv envv o0),
                          Import := imp, Dialect := dialectByName dia },
              PgSchema := sch }) := by
  refine ⟨fun nm opn h => newDBDriver_unknown nm opn h, ?_, ?_⟩
  · intro f envv p env sch d0 o0 h1 hdrv h2 himp hdia
    unfold NewDBConf resolveDriver
    simp only [h1, h2, yamlGet_lookup_none f _ himp, yamlGet_lookup_none f _ hdia]
    obtain ⟨hI, hD⟩ := newDBDriver_unknown (osExpandEnv envv d0)
      (normalizeOpen (osExpandEnv envv d0) (osExpandEnv envv o0)) hdrv
    have hv : (newDBDriver (osExpandEnv envv d0)
        (normalizeOpen (osExpandEnv envv d0) (osExpandEnv envv o0))).IsValid = false := by
      simp [DBDriver.IsValid, hI, hD]
    simp [hv, Except.map]
  · intro f envv p env sch d0 o0 imp dia h1 h2 hi hne hd hsome
    unfold NewDBConf resolveDriver
    simp only [h1, h2, hi, hd, newDBDriver_Name, newDBDriver_OpenStr]
    have hlen := string_ne_empty_length imp hne
    have hv :
        ({ Name := osExpandEnv envv d0,
           OpenStr := normalizeOpen (osExpandEnv envv d0) (osExpandEnv envv o0),
           Import := imp,
           Dialect := dialectByName dia } : DBDriver).IsValid = true := by
      simp [DBDriver.IsValid, hlen, hsome]
    simp [hv, Except.map]

/-- C5, witness: the no-override failure and the good-override success
instantiated on concrete files. -/
theorem unknown_driver_validation_witness :
    NewDBConf yamlUnknownFix envNone "b" "development" "" =
      Except.error (ConfErr.invalidConf
        (newDBDriver (osExpandEnv envNone "foo")
          (normalizeOpen (osExpandEnv envNone "foo") (osExpandEnv envNone "x")))) ∧
    NewDBConf yamlGoodOverridesFix envNone "b" "development" "" =
      Except.ok
        { MigrationsDir := filepathJoin "b" "migrations", Env := "development",
          Driver := { Name := osExpandEnv envNone "foo",
                      OpenStr := normalizeOpen (osExpandEnv envNone "foo")
                        (osExpandEnv envNone "x"),
                      Import := "github.com/lib/pq",
                      Dialect := dialectByName "postgres" },
          PgSchema := "" } :=
  ⟨unknown_driver_validation.2.1 yamlUnknownFix
     envNone "b" "development" "" "foo" "x" rfl (by decide) rfl rfl rfl,
   unknown_driver_validation.2.2 yamlGoodOverridesFix envNone "b" "development" ""
     "foo" "x" "github.com/lib/pq" "postgres" rfl rfl rfl (by decide) rfl rfl⟩

/-! ## The dbname pattern: extraction and replacement semantics -/

theorem stripLeading_eq (p : List Char) :
    ∀ l r, stripLeading p l = some r → l = p ++ r := by
  induction p with
  | nil =>
    intro l r h
    simp only [stripLeading, Option.some.injEq] at h
    subst h
    rfl
  | cons x xs ih =>
    intro l r h
    cases l with
    | nil => exact Option.noConfusion h
    | cons c cs =>
      simp only [stripLeading] at h
      by_cases hc : (c == x) = true
      · rw [if_pos hc] at h
        have hcs := ih cs r h
        subst hcs
        rw [List.cons_append, eq_of_beq hc]
      · rw [if_neg hc] at h
        exact Option.noConfusion h

theorem stripLeading_append (p r : List Char) : stripLeading p (p ++ r) = some r := by
  induction p with
  | nil => rfl
  | cons x xs ih => simp [stripLeading, ih]

theorem dropWhile_head_not (p : Char → Bool) (l : List Char) :
    l.dropWhile p = [] ∨ ∃ c t, l.dropWhile p = c :: t ∧ p c = false := by
  induction l with
  | nil => left; rfl
  | cons c cs ih =>
    cases hc : p c with
    | true => simpa [List.dropWhile, hc] using ih
    | false => right; exact ⟨c, cs, by simp [List.dropWhile, hc], hc⟩

/-- Soundness of the head match: the input decomposes into the marker, a
non-empty spaceless capture, and a remainder that is empty or starts with
a space. -/
theorem tryDbnameMatch_spec (l nm rest : List Char)
    (h : tryDbnameMatch l = some (nm, rest)) :
    l = dbnameMarker ++ nm ++ rest ∧ nm ≠ [] ∧ (∀ c ∈ nm, c ≠ ' ') ∧
      (rest = [] ∨ ∃ t, rest = ' ' :: t) := by
  unfold tryDbnameMatch at h
  cases hs : stripLeading dbnameMarker l with
  | none =>
    simp only [hs] at h
    exact Option.noConfusion h
  | some r =>
    simp only [hs] at h
    by_cases he : (r.takeWhile isNonSpace).isEmpty = true
    · rw [if_pos he] at h; exact Option.noConfusion h
    · rw [if_neg he] at h
      simp only [Option.some.injEq, Prod.mk.injEq] at h
      obtain ⟨hnm, hrest⟩ := h
      subst hnm
      subst hrest
      refine ⟨?_, ?_, ?_, ?_⟩
      · rw [stripLeading_eq dbnameMarker l r hs, List.append_assoc,
          List.takeWhile_append_dropWhile]
      · intro hempty
        rw [hempty] at he
        exact he rfl
      · intro c hc
        have := List.mem_takeWhile_imp hc
        simpa [isNonSpace] using this
      · rcases dropWhile_head_not isNonSpace r with h0 | ⟨c, t, hct, hcf⟩
        · left; exact h0
        · right
          refine ⟨t, ?_⟩
          rw [hct]
          have : c = ' ' := by simpa [isNonSpace] using hcf
          rw [this]

/-- A match succeeds at any position where the marker is followed by a
non-space character. -/
theorem tryDbnameMatch_at (r : List Char) (c : Char) (t : List Char)
    (hr : r = c :: t) (hc : c ≠ ' ') :
    tryDbnameMatch (dbnameMarker ++ r) ≠ none := by
  unfold tryDbnameMatch
  rw [stripLeading_append]
  subst hr
  have hcs : isNonSpace c = true := by simpa [isNonSpace] using hc
  simp [List.takeWhile, hcs]

/-- The capture of dbnameFindL is sound (decomposition, non-empty,
spaceless, maximal) and comes from the leftmost matching position. -/
theorem dbnameFindL_spec : ∀ l nm, dbnameFindL l = some nm →
    ∃ pre rest, l = pre ++ dbnameMarker ++ nm ++ rest ∧ nm ≠ [] ∧
      (∀ c ∈ nm, c ≠ ' ') ∧ (rest = [] ∨ ∃ t, rest = ' ' :: t) ∧
      ∀ p c t r, l = p ++ dbnameMarker ++ r → r = c :: t → c ≠ ' ' →
        pre.length ≤ p.length := by
  intro l
  induction l with
  | nil => intro nm h; exact Option.noConfusion h
  | cons x xs ih =>
    intro nm h
    simp only [dbnameFindL] at h
    cases hm : tryDbnameMatch (x :: xs) with
    | some pr =>
      rw [hm] at h
      obtain ⟨nm0, rest0⟩ := pr
      simp only [Option.some.injEq] at h
      subst h
      obtain ⟨hdec, hne, hsp, hrest⟩ := tryDbnameMatch_spec _ _ _ hm
      exact ⟨[], rest0, by simpa using hdec, hne, hsp, hrest,
        fun p c t r hp hr hc => Nat.zero_le _⟩
    | none =>
      rw [hm] at h
      obtain ⟨pre, rest, hdec, hne, hsp, hrest, hleft⟩ := ih nm h
      refine ⟨x :: pre, rest, by simp [hdec], hne, hsp, hrest, ?_⟩
      intro p c t r hp hr hc
      cases p with
      | nil =>
        exfalso
        apply tryDbnameMatch_at r c t hr hc
        simp only [List.nil_append] at hp
        rw [← hp]
        exact hm
      | cons y ys =>
        simp only [List.cons_append, List.cons.injEq] at hp
        have := hleft ys c t r hp.2 hr hc
        simpa [List.length_cons] using this



theorem schemaStep_mem (w : World) (conf : DBConf) (db : Option String)
    (es0 : List Effect) (a : Effect) (h : a ∈ es0) :
    a ∈ (schemaStep w conf db es0).2 := by
  unfold schemaStep
  split
  · cases db with
    | none => exact h
    | some dsn =>
      cases w.execSchema with
      | none => exact List.mem_append_left _ h
      | some m => exact List.mem_append_left _ h
  · exact h

/-- C10 (confirmed): the extracted database name is the capture of the
first position where dbname= is followed by a maximal run of characters
other than the ASCII space (so a tab is included in the name), and
provisioning opens the maintenance connection on the string in which every
match of the pattern is replaced by dbname=postgres, issuing CREATE
DATABASE on the extracted name; concrete instances show the first-match
rule, tab inclusion, and that both occurrences are replaced. -/
theorem dbname_pattern_semantics :
    (∀ s nm, dbnameFind s = some nm →
       nm ≠ "" ∧ (∀ c ∈ nm.data, c ≠ ' ') ∧
       ∃ pre rest, s.data = pre ++ dbnameMarker ++ nm.data ++ rest ∧
         (rest = [] ∨ ∃ t, rest = ' ' :: t) ∧
         ∀ p c t r, s.data = p ++ dbnameMarker ++ r → r = c :: t → c ≠ ' ' →
           pre.length ≤ p.length) ∧
    (∀ w conf e dbname,
       w.openMain = none → w.pingRes = some e → isMissingDbErr e = true →
       dbnameFind conf.Driver.OpenStr = some dbname → w.openMaint = none →
       Effect.sqlOpen conf.Driver.Name (dbnameReplaceAll conf.Driver.OpenStr) ∈
         (OpenDBFromDBConf w conf).2 ∧
       Effect.exec (dbnameReplaceAll conf.Driver.OpenStr)
           ("CREATE DATABASE " ++ dbname) ∈ (OpenDBFromDBConf w conf).2) ∧
    dbnameFind "a dbname=x dbname=y" = some "x" ∧
    dbnameFind "dbname=a\tb c" = some "a\tb" ∧
    dbnameReplaceAll "dbname=x y dbname=z" = "dbname=postgres y dbname=postgres" ∧
    dbnameReplaceAll "dbname=a\tb c" = "dbname=postgres c" := by
  refine ⟨?_, ?_, rfl, rfl, rfl, rfl⟩
  · intro s nm h
    unfold dbnameFind at h
    cases hf : dbnameFindL s.data with
    | none => rw [hf] at h; exact Option.noConfusion h
    | some nm0 =>
      rw [hf] at h
      simp only [Option.map] at h
      simp only [Option.some.injEq] at h
      subst h
      obtain ⟨pre, rest, hdec, hne, hsp, hrest, hleft⟩ := dbnameFindL_spec s.data nm0 hf
      refine ⟨?_, hsp, pre, rest, hdec, hrest, hleft⟩
      intro hemp
      exact hne (congrArg String.data hemp)
  · intro w conf e dbname h1 h2 h3 h4 h5
    simp only [OpenDBFromDBConf, pingIndicatesMissingDb, h1, h2, h3, h4, h5, if_true]
    cases hec : w.execCreate with
    | some m => constructor <;> simp [withMaintClose]
    | none =>
      constructor <;>
      · unfold withMaintClose
        apply List.mem_append_left
        apply schemaStep_mem
        simp

/-- C10, witness: the extraction soundness instantiated on a string with
two occurrences, capturing the first. -/
theorem dbname_pattern_semantics_witness :
    dbnameFind "a dbname=x dbname=y" = some "x" ∧
    (("x" : String) ≠ "" ∧ (∀ c ∈ ("x" : String).data, c ≠ ' ') ∧
     ∃ pre rest,
       ("a dbname=x dbname=y" : String).data =
         pre ++ dbnameMarker ++ ("x" : String).data ++ rest ∧
       (rest = [] ∨ ∃ t, rest = ' ' :: t) ∧
       ∀ p c t r,
         ("a dbname=x dbname=y" : String).data = p ++ dbnameMarker ++ r →
         r = c :: t → c ≠ ' ' → pre.length ≤ p.length) :=
  ⟨rfl, dbname_pattern_semantics.1 "a dbname=x dbname=y" "x" rfl⟩

end Goose


